import Mathlib

/-!
Shallow embedding of the Chrome Prompt API Test Platform core:
the IndexedDB persistence layer (`src/lib/database.ts`), the Chrome API
service (`src/services/chromeApi.ts`), and the streaming-turn update logic
of the chat component (`src/components/ChatInterface.tsx`).

Object stores are modelled as lists of records with the record's `id`
field as primary key (IndexedDB `keyPath: 'id'`).  Every observation the
code performs on a store (`get` by key, `getAll`, `getAllFromIndex`) is
modelled order-insensitively over that list: `get` is a key lookup and the
`getAll*` operations sort by the relevant (index key, primary key) pair,
exactly as IndexedDB enumerates an index in ascending key order with the
primary key as tie-break.  JavaScript `Date` values are embedded as their
time value in milliseconds (`Int`); JavaScript numbers used by the service
layer (topK, temperature, usage, quota) are embedded as `ℚ`.
-/

namespace PromptPlatform

/-- Message / initial-prompt role tags. -/
inductive Role
  | system
  | user
  | assistant
deriving DecidableEq

/-- `SessionRecord` from `src/lib/database.ts`. -/
structure SessionRecord where
  id : String
  name : String
  topK : Option ℚ := none
  temperature : Option ℚ := none
  initialPrompts : Option (List (Role × String)) := none
  createdAt : Int
  updatedAt : Int
  inputUsage : ℚ
  inputQuota : ℚ
deriving DecidableEq

/-- `MessageRecord` from `src/lib/database.ts`. -/
structure MessageRecord where
  id : String
  sessionId : String
  role : Role
  content : String
  timestamp : Int
  isStreaming : Option Bool := none
  isError : Option Bool := none
deriving DecidableEq

/-- The `ChromePromptDB` IndexedDB database: the two object stores. -/
structure ChromeDB where
  sessions : List SessionRecord
  messages : List MessageRecord
deriving DecidableEq

/-- The primary key of a session record (`keyPath: 'id'`). -/
def sessKey (s : SessionRecord) : String := s.id

/-- The primary key of a message record (`keyPath: 'id'`). -/
def msgKey (m : MessageRecord) : String := m.id

/-- Store well-formedness: primary keys are unique in each object store
(IndexedDB guarantees this since records are keyed by `id`). -/
def ChromeDB.WF (db : ChromeDB) : Prop :=
  (db.sessions.map sessKey).Nodup ∧ (db.messages.map msgKey).Nodup

instance (db : ChromeDB) : Decidable db.WF := by
  unfold ChromeDB.WF; infer_instance

/-- IndexedDB `get` on a store keyed by `key`. -/
def getByKey {α : Type} (key : α → String) (l : List α) (x : String) : Option α :=
  l.find? (fun a => key a == x)

/-- IndexedDB `put` on a store keyed by `key`: replace the record with the
same key if present, otherwise insert. -/
def putByKey {α : Type} (key : α → String) (l : List α) (r : α) : List α :=
  if l.any (fun a => key a == key r) then
    l.map (fun a => if key a == key r then r else a)
  else
    l ++ [r]

/-- Ascending enumeration order of the sessions `by-updated` index:
index key `updatedAt`, tie-broken by primary key. -/
def sessUpdLE (a b : SessionRecord) : Prop :=
  toLex (a.updatedAt, a.id) ≤ toLex (b.updatedAt, b.id)

instance : DecidableRel sessUpdLE := fun a b =>
  inferInstanceAs (Decidable (_ ≤ _))

instance : IsTotal SessionRecord sessUpdLE :=
  ⟨fun a b => le_total (toLex (a.updatedAt, a.id)) (toLex (b.updatedAt, b.id))⟩

instance : IsTrans SessionRecord sessUpdLE :=
  ⟨fun _ _ _ hab hbc => le_trans hab hbc⟩

/-- Ascending enumeration order of the messages `by-session-timestamp`
index restricted to one session: index key `timestamp`, tie-broken by
primary key. -/
def msgTsLE (a b : MessageRecord) : Prop :=
  toLex (a.timestamp, a.id) ≤ toLex (b.timestamp, b.id)

instance : DecidableRel msgTsLE := fun a b =>
  inferInstanceAs (Decidable (_ ≤ _))

instance : IsTotal MessageRecord msgTsLE :=
  ⟨fun a b => le_total (toLex (a.timestamp, a.id)) (toLex (b.timestamp, b.id))⟩

instance : IsTrans MessageRecord msgTsLE :=
  ⟨fun _ _ _ hab hbc => le_trans hab hbc⟩

/-- Ascending primary-key enumeration order of the messages store. -/
def msgIdLE (a b : MessageRecord) : Prop := a.id ≤ b.id

instance : DecidableRel msgIdLE := fun a b =>
  inferInstanceAs (Decidable (_ ≤ _))

instance : IsTotal MessageRecord msgIdLE := ⟨fun a b => le_total a.id b.id⟩

instance : IsTrans MessageRecord msgIdLE :=
  ⟨fun _ _ _ hab hbc => le_trans hab hbc⟩

/-- `SessionDB.getById`: `db.get('sessions', id)`. -/
def SessionDB.getById (db : ChromeDB) (id : String) : Option SessionRecord :=
  getByKey sessKey db.sessions id

/-- `SessionDB.getAll`: `db.getAllFromIndex('sessions', 'by-updated')` —
records in ascending `by-updated` index order. -/
def SessionDB.getAll (db : ChromeDB) : List SessionRecord :=
  List.insertionSort sessUpdLE db.sessions

/-- `SessionDB.delete`: one read-write transaction over both stores that
deletes the session record and every message whose `sessionId` matches
(keys taken from the `by-session` index). -/
def SessionDB.delete (db : ChromeDB) (id : String) : ChromeDB :=
  { sessions := db.sessions.filter (fun s => !(s.id == id)),
    messages := db.messages.filter (fun m => !(m.sessionId == id)) }

/-- `MessageDB.getById`: `db.get('messages', id)`. -/
def MessageDB.getById (db : ChromeDB) (id : String) : Option MessageRecord :=
  getByKey msgKey db.messages id

/-- `MessageDB.getBySessionId`: `getAllFromIndex('messages',
'by-session-timestamp', IDBKeyRange.bound([sessionId, new Date(0)],
[sessionId, new Date()]))`.  `now` is the time value of the `new Date()`
built at call time; the range keeps exactly the records of this session
whose timestamp lies between the epoch and `now`, enumerated in ascending
index order. -/
def MessageDB.getBySessionId (db : ChromeDB) (sessionId : String) (now : Int) :
    List MessageRecord :=
  List.insertionSort msgTsLE
    (db.messages.filter (fun m =>
      m.sessionId == sessionId && decide (0 ≤ m.timestamp) && decide (m.timestamp ≤ now)))

/-- A `Partial<Omit<MessageRecord, 'id' | 'timestamp'>>` update payload:
`none` means the field is absent from the partial object. -/
structure MessageUpd where
  sessionId : Option String := none
  role : Option Role := none
  content : Option String := none
  isStreaming : Option Bool := none
  isError : Option Bool := none
deriving DecidableEq

/-- The spread `{ ...existing, ...updates }` merge. -/
def MessageRecord.applyUpd (m : MessageRecord) (u : MessageUpd) : MessageRecord :=
  { m with
    sessionId := u.sessionId.getD m.sessionId,
    role := u.role.getD m.role,
    content := u.content.getD m.content,
    isStreaming := match u.isStreaming with
      | some b => some b
      | none => m.isStreaming,
    isError := match u.isError with
      | some b => some b
      | none => m.isError }

/-- `MessageDB.update`: read the existing record, merge the partial
payload over it, `put` the result; `undefined` (here `none`) and an
unchanged store when the id is unknown. -/
def MessageDB.update (db : ChromeDB) (id : String) (u : MessageUpd) :
    ChromeDB × Option MessageRecord :=
  match MessageDB.getById db id with
  | none => (db, none)
  | some m =>
    let m' := m.applyUpd u
    ({ db with messages := putByKey msgKey db.messages m' }, some m')

/-- The `{ sessions, messages }` snapshot structure of export / import. -/
structure ExportBundle where
  sessions : List SessionRecord
  messages : List MessageRecord
deriving DecidableEq

/-- `DataManager.exportData`: sessions via `SessionDB.getAll` (ascending
`by-updated` order), messages via `db.getAll('messages')` (ascending
primary-key order). -/
def DataManager.exportData (db : ChromeDB) : ExportBundle :=
  { sessions := SessionDB.getAll db,
    messages := List.insertionSort msgIdLE db.messages }

/-- `DataManager.importData`: one transaction that `put`s every session,
then every message, of the snapshot. -/
def DataManager.importData (db : ChromeDB) (data : ExportBundle) : ChromeDB :=
  { sessions := data.sessions.foldl (putByKey sessKey) db.sessions,
    messages := data.messages.foldl (putByKey msgKey) db.messages }

/-- `DataManager.clearAllData`: clears both object stores. -/
def DataManager.clearAllData (_db : ChromeDB) : ChromeDB :=
  { sessions := [], messages := [] }

/-! ## Chrome API service (`src/services/chromeApi.ts`) -/

/-- A JavaScript `Error` value: its `name` and `message` properties. -/
structure JSError where
  name : String
  message : String
deriving DecidableEq

/-- Template-string conversion of an `Error` value
(`Error.prototype.toString`): `name` when the message is empty,
otherwise `name ++ ": " ++ message`. -/
def errorToString (e : JSError) : String :=
  if e.message = "" then e.name else e.name ++ ": " ++ e.message

/-- `new PromptExecutionError(msg)`: the `Error` built by the
`ChromeAPIError` base constructor — `name` is `'ChromeAPIError'` and the
message is prefixed by the `PromptExecutionError` constructor. -/
def promptExecutionError (msg : String) : JSError :=
  { name := "ChromeAPIError", message := "Failed to execute prompt: " ++ msg }

/-- `ChromeAPIService.prompt`: forwards a successful result of the
underlying `session.prompt`, wraps any failure into a
`PromptExecutionError` carrying the stringified original error. -/
def ChromeAPIService.prompt (result : Except JSError String) : Except JSError String :=
  match result with
  | .ok s => .ok s
  | .error e => .error (promptExecutionError (errorToString e))

deriving instance DecidableEq for Except

/-- Observable trace of one `promptWithRetry` run: how many times the
underlying `session.prompt` was invoked, the backoff delays (ms) awaited
between consecutive attempts, and the final outcome. -/
structure RetryTrace where
  calls : Nat
  delays : List Nat
  result : Except JSError String
deriving DecidableEq

/-- The `for (let attempt = 0; attempt <= maxRetries; attempt++)` loop of
`ChromeAPIService.promptWithRetry`.  `promptFn n` is the outcome of the
`n`-th invocation of the underlying `session.prompt` (the service's
`this.prompt` wrapping is applied on top); `remaining` counts the loop
iterations still allowed (`maxRetries + 1 - attempt`). -/
def retryGo (promptFn : Nat → Except JSError String) (maxRetries : Nat) :
    Nat → Nat → Nat → List Nat → Option JSError → RetryTrace
  | 0, _, calls, delays, lastError =>
    { calls := calls, delays := delays,
      result := .error (promptExecutionError
        ("Failed after " ++ toString (maxRetries + 1) ++ " attempts. Last error: "
          ++ ((lastError.map (fun e => e.message)).getD "undefined"))) }
  | remaining + 1, attempt, calls, delays, _ =>
    match ChromeAPIService.prompt (promptFn attempt) with
    | .ok s => { calls := calls + 1, delays := delays, result := .ok s }
    | .error e =>
      if attempt < maxRetries then
        retryGo promptFn maxRetries remaining (attempt + 1) (calls + 1)
          (delays ++ [2 ^ attempt * 1000]) (some e)
      else
        retryGo promptFn maxRetries remaining (attempt + 1) (calls + 1) delays (some e)

/-- `ChromeAPIService.promptWithRetry` (trace semantics). -/
def ChromeAPIService.promptWithRetry (promptFn : Nat → Except JSError String)
    (maxRetries : Nat := 3) : RetryTrace :=
  retryGo promptFn maxRetries (maxRetries + 1) 0 0 [] none

/-- `ModelParams` reported by `window.ai.languageModel.params()`. -/
structure ModelParams where
  defaultTopK : ℚ
  maxTopK : ℚ
  defaultTemperature : ℚ
  maxTemperature : ℚ
deriving DecidableEq

/-- The `{ valid, errors }` result of `validateSessionParams`. -/
structure ValidationResult where
  valid : Bool
  errors : List String
deriving DecidableEq

/-- `ChromeAPIService.validateSessionParams`: `params` is the outcome of
`getModelParams()`; a failed fetch yields the catch-branch result. -/
def ChromeAPIService.validateSessionParams (params : Except JSError ModelParams)
    (topK : Option ℚ) (temperature : Option ℚ) : ValidationResult :=
  match params with
  | .error e =>
    { valid := false,
      errors := ["Failed to validate parameters: " ++ errorToString e] }
  | .ok p =>
    let topKErrors : List String :=
      match topK with
      | some k =>
        if k < 1 ∨ p.maxTopK < k then
          ["topK must be between 1 and " ++ toString p.maxTopK]
        else []
      | none => []
    let tempErrors : List String :=
      match temperature with
      | some t =>
        if t < 0 ∨ p.maxTemperature < t then
          ["temperature must be between 0 and " ++ toString p.maxTemperature]
        else []
      | none => []
    let errors := topKErrors ++ tempErrors
    { valid := errors.isEmpty, errors := errors }

/-- `ChromeAPIService.isSessionNearLimit`:
`quota > 0 && (usage / quota) >= threshold` on the session handle's usage
counters. -/
def ChromeAPIService.isSessionNearLimit (usage quota threshold : ℚ) : Bool :=
  decide (0 < quota) && decide (threshold ≤ usage / quota)

/-! ## Streaming turns (`src/components/ChatInterface.tsx`) -/

/-- The terminal marker appended by `handleCancelResponse`. -/
def cancellationMarker : String := "\n[Response cancelled]"

/-- The running concatenation of streamed chunks
(`accumulatedContent` in `handleStreamingResponse`). -/
def accumulate (chunks : List String) : String :=
  chunks.foldl (fun a c => a ++ c) ""

/-- The per-chunk update payloads emitted by the read loop of
`handleStreamingResponse`, starting from accumulator `acc`: each chunk
extends the accumulator and emits
`{ content: accumulatedContent, isStreaming: true }`. -/
def chunkUpds (acc : String) : List String → List MessageUpd
  | [] => []
  | c :: rest =>
    { content := some (acc ++ c), isStreaming := some true } :: chunkUpds (acc ++ c) rest

/-- How a streaming turn ends: normal completion of the stream, an
explicit cancel (`handleCancelResponse`), or a non-abort failure handled
by `handleSendMessage`'s catch branch. -/
inductive TurnOutcome
  | completed
  | cancelled
  | errored
deriving DecidableEq

/-- The terminal update payload of a streaming turn over `chunks`:
completion persists the full content with `isStreaming: false`;
cancellation appends the cancellation marker to the accumulated content;
the error branch writes the fixed error text with `isError: true`. -/
def terminalUpd (chunks : List String) : TurnOutcome → MessageUpd
  | .completed => { content := some (accumulate chunks), isStreaming := some false }
  | .cancelled =>
    { content := some (accumulate chunks ++ cancellationMarker),
      isStreaming := some false }
  | .errored =>
    { content := some "Error: Failed to get response",
      isStreaming := some false, isError := some true }

/-- The full sequence of update payloads issued against the streaming
placeholder during one turn that saw `chunks` and ended with `outcome`. -/
def turnUpds (chunks : List String) (outcome : TurnOutcome) : List MessageUpd :=
  chunkUpds "" chunks ++ [terminalUpd chunks outcome]

/-- The in-memory (projection) state of the placeholder after the read
loop of `handleStreamingResponse` has processed `chunks`: each chunk
dispatches `updateMessage({ ...aiMessage, content, isStreaming: true })`. -/
def uiAfterChunks (m : MessageRecord) (chunks : List String) : MessageRecord :=
  (chunkUpds "" chunks).foldl MessageRecord.applyUpd m

/-- `handleCancelResponse`: look the in-flight response up in the
projection's message list by `responseId`; when found, persist its current
content extended with the cancellation marker and `isStreaming: false`. -/
def handleCancelResponse (db : ChromeDB) (uiMessages : List MessageRecord)
    (responseId : String) : ChromeDB :=
  match uiMessages.find? (fun m => m.id == responseId) with
  | none => db
  | some cm =>
    (MessageDB.update db responseId
      { content := some (cm.content ++ cancellationMarker),
        isStreaming := some false }).1

/-! ## Concrete fixtures used by witnesses and counterexamples -/

/-- A concrete parameter report. -/
def exParams : ModelParams :=
  { defaultTopK := 3, maxTopK := 8, defaultTemperature := 1, maxTemperature := 2 }

/-- Session updated at time value 1. -/
def sessA5 : SessionRecord :=
  { id := "a", name := "A", createdAt := 0, updatedAt := 1,
    inputUsage := 0, inputQuota := 100 }

/-- Session updated at time value 2 (more recent than `sessA5`). -/
def sessB5 : SessionRecord :=
  { id := "b", name := "B", createdAt := 0, updatedAt := 2,
    inputUsage := 0, inputQuota := 100 }

/-- Store holding the two sessions. -/
def exDB5 : ChromeDB := { sessions := [sessA5, sessB5], messages := [] }

/-- A message of session `"s"` whose timestamp (2000) lies after the query
time 1000. -/
def msgFuture : MessageRecord :=
  { id := "m1", sessionId := "s", role := .user, content := "hi", timestamp := 2000 }

/-- Store holding only `msgFuture`. -/
def exDB6 : ChromeDB := { sessions := [], messages := [msgFuture] }

/-- A streaming placeholder record. -/
def phW : MessageRecord :=
  { id := "r1", sessionId := "s1", role := .assistant, content := "",
    timestamp := 5, isStreaming := some true }

/-- Store holding only the placeholder. -/
def dbW7 : ChromeDB := { sessions := [], messages := [phW] }

/-- The `AbortError` raised by an aborted underlying prompt call. -/
def abortError : JSError :=
  { name := "AbortError", message := "The user aborted a request." }

/-- A fixed underlying failure for each attempt. -/
def esW : Nat → JSError := fun _ => { name := "Error", message := "boom" }

/-- A prompt function failing on every invocation. -/
def promptFnW : Nat → Except JSError String := fun n => .error (esW n)

/-- A small well-formed store for the round-trip witness. -/
def dbW2 : ChromeDB := { sessions := [sessA5, sessB5], messages := [msgFuture, phW] }

end PromptPlatform

namespace PromptPlatform

/-! ## Helper lemmas -/

theorem sessUpdLE_updatedAt {a b : SessionRecord} (h : sessUpdLE a b) :
    a.updatedAt ≤ b.updatedAt := by
  rcases (Prod.Lex.le_iff _ _).mp h with h1 | ⟨h1, _⟩
  · exact le_of_lt h1
  · exact le_of_eq h1

theorem msgTsLE_timestamp {a b : MessageRecord} (h : msgTsLE a b) :
    a.timestamp ≤ b.timestamp := by
  rcases (Prod.Lex.le_iff _ _).mp h with h1 | ⟨h1, _⟩
  · exact le_of_lt h1
  · exact le_of_eq h1

theorem retryGo_fail (promptFn : Nat → Except JSError String) (es : Nat → JSError)
    (h : ∀ n, promptFn n = .error (es n)) (maxRetries : Nat) :
    ∀ remaining attempt calls delays lastErr,
      attempt + remaining = maxRetries + 1 → 1 ≤ remaining →
      retryGo promptFn maxRetries remaining attempt calls delays lastErr =
        { calls := calls + remaining,
          delays := delays ++ (List.range' attempt (remaining - 1)).map (fun a => 2 ^ a * 1000),
          result := .error (promptExecutionError
            ("Failed after " ++ toString (maxRetries + 1) ++ " attempts. Last error: "
              ++ (promptExecutionError (errorToString (es maxRetries))).message)) } := by
  intro remaining
  induction remaining with
  | zero =>
    intro attempt calls delays lastErr _ h2
    exact absurd h2 (by omega)
  | succ r ih =>
    intro attempt calls delays lastErr h1 _
    simp only [retryGo, h, ChromeAPIService.prompt]
    rcases Nat.eq_zero_or_pos r with hr | hr
    · subst hr
      have ha : attempt = maxRetries := by omega
      rw [ha]
      rw [if_neg (lt_irrefl maxRetries)]
      simp [retryGo, List.range']
    · have hlt : attempt < maxRetries := by omega
      rw [if_pos hlt]
      rw [ih (attempt + 1) (calls + 1) (delays ++ [2 ^ attempt * 1000])
        (some (promptExecutionError (errorToString (es attempt)))) (by omega) hr]
      obtain ⟨k, rfl⟩ : ∃ k, r = k + 1 := ⟨r - 1, by omega⟩
      simp only [RetryTrace.mk.injEq]
      refine ⟨by omega, ?_, trivial⟩
      simp [List.range'_succ, List.append_assoc]

theorem chunkUpds_chain (acc : String) (l : List String) :
    List.Chain' (fun u v : MessageUpd =>
      (u.content.getD "").length ≤ (v.content.getD "").length)
      ({ content := some acc, isStreaming := some true } :: chunkUpds acc l) := by
  induction l generalizing acc with
  | nil => simp [chunkUpds]
  | cons c rest ih =>
    rw [chunkUpds]
    refine List.chain'_cons.mpr ⟨?_, ih (acc ++ c)⟩
    simp only [Option.getD_some, String.length_append]
    exact Nat.le_add_right _ _

theorem chunkUpds_isStreaming (acc : String) (l : List String) :
    (chunkUpds acc l).map (fun u => u.isStreaming) =
      List.replicate l.length (some true) := by
  induction l generalizing acc with
  | nil => rfl
  | cons c rest ih =>
    simp [chunkUpds, ih, List.replicate_succ]

theorem find_map_replace {α : Type} (key : α → String) (r : α) :
    ∀ l : List α, l.any (fun a => key a == key r) = true →
      (l.map (fun a => if key a == key r then r else a)).find?
        (fun a => key a == key r) = some r := by
  intro l
  induction l with
  | nil => intro h; simp at h
  | cons a as ih =>
    intro h
    by_cases ha : (key a == key r) = true
    · simp only [List.map_cons, if_pos ha]
      exact List.find?_cons_of_pos _ (by simp)
    · simp only [List.map_cons, if_neg ha]
      rw [List.find?_cons_of_neg _ (by simpa using ha)]
      apply ih
      simpa [ha] using h

theorem find_append_single {α : Type} (key : α → String) (r : α) (l : List α)
    (h : l.any (fun a => key a == key r) = false) :
    (l ++ [r]).find? (fun a => key a == key r) = some r := by
  rw [List.find?_append]
  have h1 : l.find? (fun a => key a == key r) = none := by
    rw [List.find?_eq_none]
    intro a ha
    have := List.any_eq_false.mp h a ha
    simpa using this
  rw [h1, Option.none_or]
  exact List.find?_cons_of_pos _ (by simp)

theorem getByKey_putByKey_same {α : Type} (key : α → String) (l : List α) (r : α) :
    getByKey key (putByKey key l r) (key r) = some r := by
  rw [getByKey, putByKey]
  by_cases h : l.any (fun a => key a == key r) = true
  · rw [if_pos h]
    exact find_map_replace key r l h
  · rw [if_neg h]
    exact find_append_single key r l (by simpa using h)

theorem find_map_replace_ne {α : Type} (key : α → String) (r : α) (x : String)
    (hx : x ≠ key r) :
    ∀ l : List α, (l.map (fun a => if key a == key r then r else a)).find?
      (fun a => key a == x) = l.find? (fun a => key a == x) := by
  intro l
  induction l with
  | nil => rfl
  | cons a as ih =>
    by_cases ha : (key a == key r) = true
    · have hkar : key a = key r := by simpa using ha
      have h1 : ¬ (key r == x) = true := by
        simp only [beq_iff_eq]
        exact fun e => hx e.symm
      have h2 : ¬ (key a == x) = true := by rw [hkar]; exact h1
      simp only [List.map_cons, if_pos ha]
      rw [List.find?_cons_of_neg (p := fun a => key a == x) _ h1,
        List.find?_cons_of_neg (p := fun a => key a == x) _ h2]
      exact ih
    · simp only [List.map_cons, if_neg ha]
      by_cases hax : (key a == x) = true
      · rw [List.find?_cons_of_pos (p := fun a => key a == x) _ hax,
          List.find?_cons_of_pos (p := fun a => key a == x) _ hax]
      · rw [List.find?_cons_of_neg (p := fun a => key a == x) _ hax,
          List.find?_cons_of_neg (p := fun a => key a == x) _ hax]
        exact ih

theorem find_append_single_ne {α : Type} (key : α → String) (r : α) (x : String)
    (hx : x ≠ key r) (l : List α) :
    (l ++ [r]).find? (fun a => key a == x) = l.find? (fun a => key a == x) := by
  rw [List.find?_append]
  have h1 : [r].find? (fun a => key a == x) = none := by
    rw [List.find?_cons_of_neg (p := fun a => key a == x) _
      (by simp only [beq_iff_eq]; exact fun e => hx e.symm)]
    rfl
  rw [h1, Option.or_none]

theorem getByKey_putByKey_ne {α : Type} (key : α → String) (l : List α) (r : α)
    (x : String) (hx : x ≠ key r) :
    getByKey key (putByKey key l r) x = getByKey key l x := by
  rw [getByKey, getByKey, putByKey]
  by_cases h : l.any (fun a => key a == key r) = true
  · rw [if_pos h]
    exact find_map_replace_ne key r x hx l
  · rw [if_neg h]
    exact find_append_single_ne key r x hx l

theorem find?_key_of_perm {α : Type} (key : α → String) {l l' : List α}
    (hp : l.Perm l') (hn : (l.map key).Nodup) (x : String) :
    l.find? (fun a => key a == x) = l'.find? (fun a => key a == x) := by
  cases hf : l.find? (fun a => key a == x) with
  | none =>
    have hall := List.find?_eq_none.mp hf
    symm
    rw [List.find?_eq_none]
    intro a ha
    exact hall a (hp.mem_iff.mpr ha)
  | some b =>
    have hb : (key b == x) = true := List.find?_some (p := fun a => key a == x) hf
    have hbl : b ∈ l := List.mem_of_find?_eq_some hf
    symm
    cases hf' : l'.find? (fun a => key a == x) with
    | none =>
      exact absurd (List.find?_eq_none.mp hf' b (hp.mem_iff.mp hbl)) (by simp [hb])
    | some c =>
      have hc : (key c == x) = true := List.find?_some (p := fun a => key a == x) hf'
      have hcl : c ∈ l' := List.mem_of_find?_eq_some hf'
      have hcb : c = b := by
        refine List.inj_on_of_nodup_map hn (hp.mem_iff.mpr hcl) hbl ?_
        have h1 : key c = x := by simpa using hc
        have h2 : key b = x := by simpa using hb
        rw [h1, h2]
      rw [hcb]

theorem find?_self_of_mem {α : Type} (key : α → String) {l : List α}
    (hn : (l.map key).Nodup) {r : α} (hr : r ∈ l) :
    l.find? (fun a => key a == key r) = some r := by
  cases hf : l.find? (fun a => key a == key r) with
  | none =>
    exact absurd (List.find?_eq_none.mp hf r hr) (by simp)
  | some b =>
    have hb : (key b == key r) = true :=
      List.find?_some (p := fun a => key a == key r) hf
    have hbl : b ∈ l := List.mem_of_find?_eq_some hf
    rw [List.inj_on_of_nodup_map hn hbl hr (by simpa using hb)]

theorem getByKey_foldl_put {α : Type} (key : α → String) (x : String) :
    ∀ (data l : List α), (data.map key).Nodup →
      getByKey key (data.foldl (putByKey key) l) x =
        (data.find? (fun r => key r == x)).or (getByKey key l x) := by
  intro data
  induction data with
  | nil =>
    intro l _
    rw [List.foldl_nil, List.find?_nil, Option.none_or]
  | cons d ds ih =>
    intro l hnd
    have hnd' : (ds.map key).Nodup := (List.nodup_cons.mp (by simpa using hnd)).2
    have hdnotin : key d ∉ ds.map key := (List.nodup_cons.mp (by simpa using hnd)).1
    rw [List.foldl_cons, ih (putByKey key l d) hnd']
    by_cases hdx : (key d == x) = true
    · have hkdx : key d = x := by simpa using hdx
      have hds : ds.find? (fun r => key r == x) = none := by
        rw [List.find?_eq_none]
        intro a ha hcon
        have h1 : key a = x := by simpa using hcon
        exact hdnotin (by
          rw [hkdx, ← h1]
          exact List.mem_map_of_mem key ha)
      rw [hds, Option.none_or,
        List.find?_cons_of_pos (p := fun r => key r == x) _ hdx, ← hkdx,
        getByKey_putByKey_same key l d]
      rfl
    · have hx' : x ≠ key d := by
        intro e
        exact hdx (by rw [e]; simp)
      rw [getByKey_putByKey_ne key l d x hx',
        List.find?_cons_of_neg (p := fun r => key r == x) _ hdx]

theorem foldl_put_disjoint {α : Type} (key : α → String) :
    ∀ (data l : List α), (data.map key).Nodup →
      (∀ a ∈ data, ∀ b ∈ l, key b ≠ key a) →
      data.foldl (putByKey key) l = l ++ data := by
  intro data
  induction data with
  | nil =>
    intro l _ _
    simp
  | cons d ds ih =>
    intro l hnd hdis
    have hnd' : (ds.map key).Nodup := (List.nodup_cons.mp (by simpa using hnd)).2
    have hdnotin : key d ∉ ds.map key := (List.nodup_cons.mp (by simpa using hnd)).1
    have hfal : l.any (fun a => key a == key d) = false := by
      rw [List.any_eq_false]
      intro b hb
      simpa using hdis d (List.mem_cons_self d ds) b hb
    have hput : putByKey key l d = l ++ [d] := by
      simp [putByKey, hfal]
    rw [List.foldl_cons, hput, ih (l ++ [d]) hnd' ?_]
    · simp
    · intro a ha b hb
      rcases List.mem_append.mp hb with hbl | hbd
      · exact hdis a (List.mem_cons_of_mem d ha) b hbl
      · have hbd' : b = d := by simpa using hbd
        subst hbd'
        intro e
        exact hdnotin (by rw [e]; exact List.mem_map_of_mem key ha)

theorem MessageDB.update_found (db : ChromeDB) (id : String) (u : MessageUpd)
    (m0 : MessageRecord) (hdb : MessageDB.getById db id = some m0) :
    MessageDB.getById (MessageDB.update db id u).1 id = some (m0.applyUpd u) := by
  have hid : m0.id = id := by
    have h1 := List.find?_some
      (p := fun m : MessageRecord => msgKey m == id)
      (by simpa [MessageDB.getById, getByKey] using hdb)
    simpa [msgKey] using h1
  simp only [MessageDB.update, hdb]
  rw [MessageDB.getById]
  rw [show id = msgKey (m0.applyUpd u) from hid.symm]
  exact getByKey_putByKey_same _ _ _

end PromptPlatform

namespace PromptPlatform

/-! ## Claims -/

/-- C1: after `deleteSession(id)` the session record with that id is no
longer retrievable, `getMessagesForSession(id)` is empty at every query
time, and no message whose `sessionId` equals `id` survives in the store.
The removal is a single state transition (the embedding of the one
read-write transaction spanning both object stores), so both effects
happen together. -/
theorem deleteSession_removes_session_and_messages
    (db : ChromeDB) (id : String) (now : Int) :
    SessionDB.getById (SessionDB.delete db id) id = none ∧
    MessageDB.getBySessionId (SessionDB.delete db id) id now = [] ∧
    (∀ m ∈ (SessionDB.delete db id).messages, m.sessionId ≠ id) := by
  refine ⟨?_, ?_, ?_⟩
  · rw [SessionDB.getById, getByKey, List.find?_eq_none]
    intro a ha
    rw [SessionDB.delete] at ha
    simp only [List.mem_filter] at ha
    simpa using ha.2
  · rw [MessageDB.getBySessionId]
    have hf : (SessionDB.delete db id).messages.filter (fun m =>
        m.sessionId == id && decide (0 ≤ m.timestamp) && decide (m.timestamp ≤ now)) = [] := by
      rw [List.filter_eq_nil_iff]
      intro a ha
      rw [SessionDB.delete] at ha
      simp only [List.mem_filter] at ha
      have : ¬ (a.sessionId == id) = true := by simpa using ha.2
      simp [this]
    rw [hf]
    rfl
  · intro m hm
    rw [SessionDB.delete] at hm
    simp only [List.mem_filter] at hm
    simpa using hm.2

/-- C5, counterexample: `listSessions` on a store holding a session
updated at 1 and a session updated at 2 returns the older session first —
ascending `by-updated` order, not the descending order the claim states. -/
theorem listSessions_counterexample :
    SessionDB.getAll exDB5 = [sessA5, sessB5] ∧
    sessA5.updatedAt < sessB5.updatedAt ∧ sessA5 ≠ sessB5 := by
  refine ⟨by decide, by decide, by decide⟩

/-- C5, amended: `listSessions` (`SessionDB.getAll`) returns the full set
of session records ordered by last-update timestamp in ascending order
(most recently updated last). -/
theorem listSessions_sorted_ascending (db : ChromeDB) :
    (SessionDB.getAll db).Perm db.sessions ∧
    (SessionDB.getAll db).Pairwise (fun a b => a.updatedAt ≤ b.updatedAt) := by
  constructor
  · exact List.perm_insertionSort _ _
  · exact (List.sorted_insertionSort sessUpdLE db.sessions).imp
      (fun h => sessUpdLE_updatedAt h)

/-- C6, counterexample: a message of session `"s"` timestamped after the
query time is not returned by `getMessagesForSession("s")`, although its
`sessionId` matches — the range upper bound `new Date()` cuts it off. -/
theorem getMessagesForSession_counterexample :
    MessageDB.getBySessionId exDB6 "s" 1000 = [] ∧
    msgFuture ∈ exDB6.messages ∧ msgFuture.sessionId = "s" := by
  refine ⟨by decide, by decide, by decide⟩

/-- C6, amended: `getMessagesForSession(id)` returns exactly the message
records whose `sessionId` equals `id` and whose creation timestamp lies
between the epoch (`new Date(0)`) and the query time (`new Date()`),
inclusive, ordered by creation timestamp ascending. -/
theorem getMessagesForSession_spec (db : ChromeDB) (sid : String) (now : Int) :
    (∀ m, m ∈ MessageDB.getBySessionId db sid now ↔
      (m ∈ db.messages ∧ m.sessionId = sid ∧ 0 ≤ m.timestamp ∧ m.timestamp ≤ now)) ∧
    (MessageDB.getBySessionId db sid now).Pairwise
      (fun a b => a.timestamp ≤ b.timestamp) := by
  constructor
  · intro m
    rw [MessageDB.getBySessionId, List.mem_insertionSort, List.mem_filter]
    simp [and_assoc]
  · exact (List.sorted_insertionSort msgTsLE _).imp
      (fun h => msgTsLE_timestamp h)

/-- C9: `validateParameters` rejects a breadth (`topK`) of 0 whatever the
temperature argument, rejects a temperature strictly above the reported
maximum whatever the breadth argument, accepts the pair
(`maxTopK`, `maxTemperature`) at the reported boundaries, and in every
case (including a failed parameter fetch) returns a structured result in
which `valid` is exactly "no errors were collected".  The boundary
acceptance uses that the reported bounds satisfy `1 ≤ maxTopK` and
`0 ≤ maxTemperature`, as the bounds reported by the model do. -/
theorem validateSessionParams_spec (p : ModelParams)
    (h1 : 1 ≤ p.maxTopK) (h2 : 0 ≤ p.maxTemperature) :
    (∀ t, (ChromeAPIService.validateSessionParams (.ok p) (some 0) t).valid = false) ∧
    (∀ k t, p.maxTemperature < t →
      (ChromeAPIService.validateSessionParams (.ok p) k (some t)).valid = false) ∧
    (ChromeAPIService.validateSessionParams (.ok p)
      (some p.maxTopK) (some p.maxTemperature)).valid = true ∧
    (∀ pr k t, (ChromeAPIService.validateSessionParams pr k t).valid =
      (ChromeAPIService.validateSessionParams pr k t).errors.isEmpty) := by
  refine ⟨?_, ?_, ?_, ?_⟩
  · intro t
    have h0 : ((0 : ℚ) < 1 ∨ p.maxTopK < 0) := Or.inl (by norm_num)
    cases t <;> simp [ChromeAPIService.validateSessionParams, if_pos h0]
  · intro k t ht
    have h0 : (t < 0 ∨ p.maxTemperature < t) := Or.inr ht
    cases k with
    | none => simp [ChromeAPIService.validateSessionParams, if_pos h0]
    | some k' =>
      by_cases hk : (k' < 1 ∨ p.maxTopK < k') <;>
        simp [ChromeAPIService.validateSessionParams, if_pos h0, hk]
  · have hk : ¬ (p.maxTopK < 1 ∨ p.maxTopK < p.maxTopK) := by
      push_neg
      exact ⟨h1, le_refl _⟩
    have ht : ¬ (p.maxTemperature < 0 ∨ p.maxTemperature < p.maxTemperature) := by
      push_neg
      exact ⟨h2, le_refl _⟩
    simp only [ChromeAPIService.validateSessionParams, if_neg hk, if_neg ht,
      List.append_nil, List.isEmpty_nil]
  · intro pr k t
    cases pr <;> rfl

/-- C9, witness at the concrete parameter report `exParams`. -/
theorem validateSessionParams_spec_witness :
    (1 ≤ exParams.maxTopK ∧ 0 ≤ exParams.maxTemperature) ∧
    ((∀ t, (ChromeAPIService.validateSessionParams (.ok exParams) (some 0) t).valid = false) ∧
    (∀ k t, exParams.maxTemperature < t →
      (ChromeAPIService.validateSessionParams (.ok exParams) k (some t)).valid = false) ∧
    (ChromeAPIService.validateSessionParams (.ok exParams)
      (some exParams.maxTopK) (some exParams.maxTemperature)).valid = true ∧
    (∀ pr k t, (ChromeAPIService.validateSessionParams pr k t).valid =
      (ChromeAPIService.validateSessionParams pr k t).errors.isEmpty)) :=
  ⟨⟨by norm_num [exParams], by norm_num [exParams]⟩,
    validateSessionParams_spec exParams (by norm_num [exParams]) (by norm_num [exParams])⟩

/-- C3: against an always-failing underlying prompt, `promptWithRetry`
with `maxRetries = 3` invokes the underlying prompt exactly 4 times,
awaits delays of 1000, 2000, 4000 ms between consecutive attempts
(`2 ^ attempt` seconds, attempt starting at 0), and raises a wrapped
`PromptExecutionError` whose message embeds — hence includes — the
message of the last underlying failure (attempt 3), itself wrapped by the
service's `prompt` into a `PromptExecutionError`. -/
theorem promptWithRetry_always_failing (promptFn : Nat → Except JSError String)
    (es : Nat → JSError) (h : ∀ n, promptFn n = .error (es n)) :
    (ChromeAPIService.promptWithRetry promptFn 3).calls = 4 ∧
    (ChromeAPIService.promptWithRetry promptFn 3).delays = [1000, 2000, 4000] ∧
    (ChromeAPIService.promptWithRetry promptFn 3).result = .error (promptExecutionError
      ("Failed after 4 attempts. Last error: "
        ++ (promptExecutionError (errorToString (es 3))).message)) ∧
    (∃ pre, (promptExecutionError
      ("Failed after 4 attempts. Last error: "
        ++ (promptExecutionError (errorToString (es 3))).message)).message
      = pre ++ (es 3).message) := by
  have key := retryGo_fail promptFn es h 3 4 0 0 [] none (by norm_num) (by norm_num)
  have hpr : ChromeAPIService.promptWithRetry promptFn 3
      = retryGo promptFn 3 4 0 0 [] none := rfl
  refine ⟨?_, ?_, ?_, ?_⟩
  · rw [hpr, key]
  · rw [hpr, key]
    rfl
  · rw [hpr, key]
    rfl
  · by_cases hm : (es 3).message = ""
    · rw [hm]
      exact ⟨_, (String.append_empty _).symm⟩
    · refine ⟨"Failed to execute prompt: " ++ ("Failed after 4 attempts. Last error: "
        ++ ("Failed to execute prompt: " ++ ((es 3).name ++ ": "))), ?_⟩
      simp [promptExecutionError, errorToString, hm, String.append_assoc]

/-- C3, witness: the concrete everywhere-failing prompt function
`promptFnW`. -/
theorem promptWithRetry_always_failing_witness :
    (∀ n, promptFnW n = .error (esW n)) ∧
    ((ChromeAPIService.promptWithRetry promptFnW 3).calls = 4 ∧
     (ChromeAPIService.promptWithRetry promptFnW 3).delays = [1000, 2000, 4000] ∧
     (ChromeAPIService.promptWithRetry promptFnW 3).result = .error (promptExecutionError
       ("Failed after 4 attempts. Last error: "
         ++ (promptExecutionError (errorToString (esW 3))).message)) ∧
     (∃ pre, (promptExecutionError
       ("Failed after 4 attempts. Last error: "
         ++ (promptExecutionError (errorToString (esW 3))).message)).message
       = pre ++ (esW 3).message)) :=
  ⟨fun _ => rfl, promptWithRetry_always_failing promptFnW esW (fun _ => rfl)⟩

/-- C4 (what the code does at the failing input): with an underlying
prompt that raises `AbortError` on every attempt, `promptWithRetry` with
`maxRetries = 3` still invokes the underlying prompt 4 times — the abort
is wrapped into a `PromptExecutionError` and retried like any other
failure — and finally raises the wrapped after-4-attempts error instead
of letting the abort propagate immediately. -/
theorem promptWithRetry_abort_retried :
    (ChromeAPIService.promptWithRetry (fun _ => .error abortError) 3).calls = 4 ∧
    (ChromeAPIService.promptWithRetry (fun _ => .error abortError) 3).result =
      .error (promptExecutionError ("Failed after 4 attempts. Last error: "
        ++ (promptExecutionError (errorToString abortError)).message)) := by
  have key := retryGo_fail (fun _ => .error abortError) (fun _ => abortError)
    (fun _ => rfl) 3 4 0 0 [] none (by norm_num) (by norm_num)
  have hpr : ChromeAPIService.promptWithRetry (fun _ => .error abortError) 3
      = retryGo (fun _ => .error abortError) 3 4 0 0 [] none := rfl
  exact ⟨by rw [hpr, key], by rw [hpr, key]; rfl⟩

/-- C10: with a reported quota of 0, `isNearQuota` is `false` for every
threshold and every usage — the `quota > 0` guard short-circuits the
conjunction, so the usage/quota ratio never decides the outcome. -/
theorem isSessionNearLimit_zero_quota (usage threshold : ℚ) :
    ChromeAPIService.isSessionNearLimit usage 0 threshold = false := by
  simp [ChromeAPIService.isSessionNearLimit]

/-- C8: over one streaming turn (any chunk sequence, any of the three
terminations), the update payloads issued against the placeholder have
non-decreasing content lengths up to (and excluding) the terminal update,
and the `isStreaming` payloads are `true` on every chunk update and
`false` exactly on the terminal one — so the flag flips true→false exactly
once and never flips back. -/
theorem streamingTurn_update_invariants (chunks : List String) (o : TurnOutcome) :
    List.Chain' (fun u v : MessageUpd =>
      (u.content.getD "").length ≤ (v.content.getD "").length)
      ((turnUpds chunks o).dropLast) ∧
    (turnUpds chunks o).map (fun u => u.isStreaming) =
      List.replicate chunks.length (some true) ++ [some false] ∧
    ((turnUpds chunks o).map (fun u => u.isStreaming)).count (some false) = 1 := by
  refine ⟨?_, ?_, ?_⟩
  · rw [turnUpds, List.dropLast_concat]
    exact (chunkUpds_chain "" chunks).tail
  · rw [turnUpds, List.map_append, chunkUpds_isStreaming]
    cases o <;> rfl
  · rw [turnUpds, List.map_append, chunkUpds_isStreaming]
    have ht : [terminalUpd chunks o].map (fun u => u.isStreaming) = [some false] := by
      cases o <;> rfl
    rw [ht, List.count_append, List.count_replicate]
    simp

/-- C7: when the stream has accumulated the chunks `"Hel"` then `"lo"`
(so the projection's placeholder holds `"Hello"`) and cancel is requested,
the stored message afterwards has content `"Hello"` followed by the
cancellation marker and `isStreaming = false`.  `hdb` says the store still
holds a record under the placeholder's id (whatever checkpoint content it
carries), `hui` says the projection's message list resolves the response
id to the chunk-updated placeholder. -/
theorem cancelMidStream_spec (db : ChromeDB) (uiMessages : List MessageRecord)
    (ph m0 : MessageRecord)
    (hdb : MessageDB.getById db ph.id = some m0)
    (hui : uiMessages.find? (fun m => m.id == ph.id)
      = some (uiAfterChunks ph ["Hel", "lo"])) :
    ∃ m', MessageDB.getById (handleCancelResponse db uiMessages ph.id) ph.id = some m' ∧
      m'.content = "Hello" ++ cancellationMarker ∧
      m'.isStreaming = some false := by
  simp only [handleCancelResponse, hui]
  exact ⟨m0.applyUpd _, MessageDB.update_found db ph.id _ m0 hdb, rfl, rfl⟩

/-- C7, witness at a concrete placeholder and store. -/
theorem cancelMidStream_spec_witness :
    (MessageDB.getById dbW7 phW.id = some phW ∧
      [uiAfterChunks phW ["Hel", "lo"]].find? (fun m => m.id == phW.id)
        = some (uiAfterChunks phW ["Hel", "lo"])) ∧
    (∃ m', MessageDB.getById
        (handleCancelResponse dbW7 [uiAfterChunks phW ["Hel", "lo"]] phW.id) phW.id
        = some m' ∧
      m'.content = "Hello" ++ cancellationMarker ∧
      m'.isStreaming = some false) :=
  ⟨⟨rfl, rfl⟩,
    cancelMidStream_spec dbW7 [uiAfterChunks phW ["Hel", "lo"]] phW phW rfl rfl⟩

/-- C2: on a well-formed store, export-then-clear-then-import reproduces
the store exactly: every session and message lookup agrees with the
original store (identifier-for-identifier, field-for-field, timestamps
included), and the imported object stores are permutations of the
originals (the same record sets).  Moreover, importing any snapshot with
unique identifiers into any store overwrites: afterwards every snapshot
record is what its identifier retrieves. -/
theorem exportImport_roundtrip (db : ChromeDB) (h : db.WF) :
    (∀ x, SessionDB.getById
        (DataManager.importData (DataManager.clearAllData db) (DataManager.exportData db)) x
      = SessionDB.getById db x) ∧
    (∀ x, MessageDB.getById
        (DataManager.importData (DataManager.clearAllData db) (DataManager.exportData db)) x
      = MessageDB.getById db x) ∧
    (DataManager.importData (DataManager.clearAllData db)
      (DataManager.exportData db)).sessions.Perm db.sessions ∧
    (DataManager.importData (DataManager.clearAllData db)
      (DataManager.exportData db)).messages.Perm db.messages ∧
    (∀ (db2 : ChromeDB) (data : ExportBundle),
      (data.sessions.map sessKey).Nodup →
      (data.messages.map msgKey).Nodup →
      (∀ r ∈ data.sessions,
        SessionDB.getById (DataManager.importData db2 data) r.id = some r) ∧
      (∀ r ∈ data.messages,
        MessageDB.getById (DataManager.importData db2 data) r.id = some r)) := by
  obtain ⟨hs, hm⟩ := h
  have hsp : (SessionDB.getAll db).Perm db.sessions := List.perm_insertionSort _ _
  have hmp : (List.insertionSort msgIdLE db.messages).Perm db.messages :=
    List.perm_insertionSort _ _
  have hsn : ((SessionDB.getAll db).map sessKey).Nodup := ((hsp.map sessKey).nodup_iff).mpr hs
  have hmn : ((List.insertionSort msgIdLE db.messages).map msgKey).Nodup :=
    ((hmp.map msgKey).nodup_iff).mpr hm
  refine ⟨?_, ?_, ?_, ?_, ?_⟩
  · intro x
    show getByKey sessKey ((SessionDB.getAll db).foldl (putByKey sessKey) []) x
      = SessionDB.getById db x
    rw [getByKey_foldl_put sessKey x (SessionDB.getAll db) [] hsn]
    rw [show getByKey sessKey [] x = none from rfl, Option.or_none]
    exact find?_key_of_perm sessKey hsp hsn x
  · intro x
    show getByKey msgKey ((List.insertionSort msgIdLE db.messages).foldl (putByKey msgKey) []) x
      = MessageDB.getById db x
    rw [getByKey_foldl_put msgKey x _ [] hmn]
    rw [show getByKey msgKey [] x = none from rfl, Option.or_none]
    exact find?_key_of_perm msgKey hmp hmn x
  · show ((SessionDB.getAll db).foldl (putByKey sessKey) []).Perm db.sessions
    rw [foldl_put_disjoint sessKey (SessionDB.getAll db) [] hsn (by intro a _ b hb; simp at hb)]
    simpa using hsp
  · show ((List.insertionSort msgIdLE db.messages).foldl (putByKey msgKey) []).Perm db.messages
    rw [foldl_put_disjoint msgKey _ [] hmn (by intro a _ b hb; simp at hb)]
    simpa using hmp
  · intro db2 data hnds hndm
    constructor
    · intro r hr
      show getByKey sessKey (data.sessions.foldl (putByKey sessKey) db2.sessions) r.id = some r
      rw [show (r.id : String) = sessKey r from rfl]
      rw [getByKey_foldl_put sessKey (sessKey r) data.sessions db2.sessions hnds]
      rw [find?_self_of_mem sessKey hnds hr]
      rfl
    · intro r hr
      show getByKey msgKey (data.messages.foldl (putByKey msgKey) db2.messages) r.id = some r
      rw [show (r.id : String) = msgKey r from rfl]
      rw [getByKey_foldl_put msgKey (msgKey r) data.messages db2.messages hndm]
      rw [find?_self_of_mem msgKey hndm hr]
      rfl

/-- C2, witness at a concrete well-formed store of two sessions and two
messages. -/
theorem exportImport_roundtrip_witness :
    dbW2.WF ∧
    (∀ x, SessionDB.getById
        (DataManager.importData (DataManager.clearAllData dbW2) (DataManager.exportData dbW2)) x
      = SessionDB.getById dbW2 x) :=
  ⟨by decide, (exportImport_roundtrip dbW2 (by decide)).1⟩

end PromptPlatform
